import Mathlib

/-!
Shallow embedding of the `Company` data-access model from
`src/models/company.js` of the jobly repository.

Modelling conventions:

* The `companies` table is a `List Company` in insertion order; each SQL
  statement becomes a pure function on that list.  Every operation returns
  the pair of its outcome (`Except CompanyError _`, mirroring a thrown
  `BadRequestError` / `NotFoundError`) and the post-state of the table, so
  that frame conditions ("the table is unchanged") are statable.
* Nullable columns (`num_employees`, `logo_url`) are `Option` fields; a SQL
  comparison on a NULL `num_employees` is false, so range filters drop rows
  whose `numEmployees` is `none`.
* The SQL predicate `name ILIKE '%' || p || '%'` is modelled as
  case-insensitive substring containment of `p` in `name` (lower-casing via
  `Char.toLower`); SQL pattern metacharacters inside `p` are not given a
  wildcard meaning.
* `ORDER BY name` is modelled by `List.insertionSort` on the `name` field
  (a stable sort, matching an ascending sort under the collation of the store).
* JavaScript truthiness in the guards of `findAll` is modelled exactly: a number
  is truthy iff it is nonzero, a string is truthy iff it is nonempty, and
  `x || d` on a number yields `d` when `x` is absent or `0`.
-/

instance exceptDecEq {ε α : Type} [DecidableEq ε] [DecidableEq α] :
    DecidableEq (Except ε α) := fun x y =>
  match x, y with
  | Except.ok a, Except.ok b =>
    if h : a = b then isTrue (by rw [h]) else isFalse (by simp [h])
  | Except.error a, Except.error b =>
    if h : a = b then isTrue (by rw [h]) else isFalse (by simp [h])
  | Except.ok _, Except.error _ => isFalse (by simp)
  | Except.error _, Except.ok _ => isFalse (by simp)

/-- A row of the `companies` table / the record shape
`{handle, name, description, numEmployees, logoUrl}` returned by the model
(`num_employees` and `logo_url` are nullable columns). -/
structure Company where
  handle : String
  name : String
  description : String
  numEmployees : Option Int
  logoUrl : Option String
deriving Repr, DecidableEq

/-- The errors the model throws: `BadRequestError` and `NotFoundError`
(from `expressError`), each carrying its message string. -/
inductive CompanyError where
  | badRequest (msg : String)
  | notFound (msg : String)
deriving Repr, DecidableEq

/-- The ordering used by `ORDER BY name`: compare rows by their `name`. -/
def nameLe (a b : Company) : Prop := a.name ≤ b.name

instance : DecidableRel nameLe :=
  fun a b => inferInstanceAs (Decidable (a.name ≤ b.name))

instance : IsTotal Company nameLe := ⟨fun a b => le_total a.name b.name⟩

instance : IsTrans Company nameLe := ⟨fun _ _ _ h h' => le_trans h h'⟩

/-- Model of `ORDER BY name`: sort the rows ascending by `name`. -/
def sortByName (t : List Company) : List Company := List.insertionSort nameLe t

/-- Boolean check that the character list `n` starts the character list
`h` (helper for the substring matcher modelling `ILIKE`). -/
def startsWithChars : List Char → List Char → Bool
  | [], _ => true
  | _ :: _, [] => false
  | a :: n, b :: h => a = b && startsWithChars n h

/-- Boolean check that the character list `n` occurs contiguously inside
`h` (helper for the substring matcher modelling `ILIKE`). -/
def occursIn (n : List Char) : List Char → Bool
  | [] => n.isEmpty
  | b :: h => startsWithChars n (b :: h) || occursIn n h

/-- Model of the SQL predicate `name ILIKE '%' || pat || '%'`:
case-insensitive substring containment of `pat` in `nm`. -/
def nameMatches (pat nm : String) : Bool :=
  occursIn (pat.toList.map Char.toLower) (nm.toList.map Char.toLower)

/-- Model of the SQL predicate
`num_employees >= lo AND num_employees <= hi`; false on a NULL
`num_employees`, as in SQL. -/
def numInRange (lo hi : Int) (c : Company) : Bool :=
  match c.numEmployees with
  | some n => decide (lo ≤ n) && decide (n ≤ hi)
  | none => false

/-- A `findAll` query object `{name, minEmployees, maxEmployees}`; absent
properties are `none`. -/
structure FindAllQuery where
  name : Option String := none
  minEmployees : Option Int := none
  maxEmployees : Option Int := none
deriving Repr, DecidableEq

/-- JavaScript truthiness of the destructured `name` value: an absent value
and the empty string are falsy. -/
def truthyStr : Option String → Bool
  | none => false
  | some s => s ≠ ""

/-- JavaScript truthiness of a destructured numeric bound: an absent value
and `0` are falsy. -/
def truthyNum : Option Int → Bool
  | none => false
  | some n => n ≠ 0

/-- The JavaScript expression `x || d` on a numeric bound: the value when
truthy (present and nonzero), otherwise the default `d`. -/
def jsOrNum (x : Option Int) (d : Int) : Int :=
  match x with
  | some n => if n ≠ 0 then n else d
  | none => d

/-- The check `Number(minEmployees) > Number(maxEmployees)` of
`Company.findAll`: comparison with an absent bound is a comparison with
`NaN`, hence false, so it fires only when both bounds are present. -/
def boundsInverted (q : FindAllQuery) : Bool :=
  match q.minEmployees, q.maxEmployees with
  | some a, some b => decide (a > b)
  | _, _ => false

/-- `Company.create`: pre-check `SELECT handle FROM companies WHERE handle = $1`;
if a row exists, throw `BadRequestError`, else `INSERT ... RETURNING` the
inserted row. -/
def Company.create (d : Company) (t : List Company) :
    Except CompanyError Company × List Company :=
  if (t.filter fun c => c.handle = d.handle) ≠ [] then
    (Except.error (CompanyError.badRequest ("Duplicate company: " ++ d.handle)), t)
  else
    (Except.ok d, t ++ [d])

/-- `Company.findAllByNameAndEmployeeNum`: rows matching
`name ILIKE '%name%' AND num_employees >= min AND num_employees <= max`,
ordered by name. -/
def Company.findAllByNameAndEmployeeNum (nm : String) (lo hi : Int)
    (t : List Company) : List Company :=
  sortByName (t.filter fun c => nameMatches nm c.name && numInRange lo hi c)

/-- `Company.findAllByName`: rows matching `name ILIKE '%name%'`, ordered by
name. -/
def Company.findAllByName (nm : String) (t : List Company) : List Company :=
  sortByName (t.filter fun c => nameMatches nm c.name)

/-- `Company.findAllByEmployeeNum`: rows matching
`num_employees >= min AND num_employees <= max`, ordered by name. -/
def Company.findAllByEmployeeNum (lo hi : Int) (t : List Company) :
    List Company :=
  sortByName (t.filter (numInRange lo hi))

/-- `Company.findAll`: the bound-inversion check followed by the four-branch
dispatch on JavaScript-truthy `name` / `minEmployees` / `maxEmployees`,
with `minEmployees || 0` and `maxEmployees || 1000000` as defaulted bounds. -/
def Company.findAll (q : FindAllQuery) (t : List Company) :
    Except CompanyError (List Company) × List Company :=
  if boundsInverted q then
    (Except.error
      (CompanyError.badRequest "minEmployees cannot be greater than maxEmployees"), t)
  else if truthyStr q.name && (truthyNum q.minEmployees || truthyNum q.maxEmployees) then
    (Except.ok (Company.findAllByNameAndEmployeeNum (q.name.getD "")
      (jsOrNum q.minEmployees 0) (jsOrNum q.maxEmployees 1000000) t), t)
  else if !truthyStr q.name && (truthyNum q.minEmployees || truthyNum q.maxEmployees) then
    (Except.ok (Company.findAllByEmployeeNum
      (jsOrNum q.minEmployees 0) (jsOrNum q.maxEmployees 1000000) t), t)
  else if truthyStr q.name && !(truthyNum q.minEmployees && truthyNum q.maxEmployees) then
    (Except.ok (Company.findAllByName (q.name.getD "") t), t)
  else
    (Except.ok (sortByName t), t)

/-- `Company.get`: `SELECT ... WHERE handle = $1`; `rows[0]` if present,
else throw `NotFoundError`. -/
def Company.get (h : String) (t : List Company) :
    Except CompanyError Company × List Company :=
  match (t.filter fun c => c.handle = h).head? with
  | none => (Except.error (CompanyError.notFound ("No company: " ++ h)), t)
  | some c => (Except.ok c, t)

/-- The sparse field map passed to `Company.update`; per the documented contract of the model, data can include `{name, description, numEmployees,
logoUrl}` (the nullable columns may be set to NULL). -/
structure UpdateData where
  name : Option String := none
  description : Option String := none
  numEmployees : Option (Option Int) := none
  logoUrl : Option (Option String) := none
deriving Repr, DecidableEq

/-- A single compiled `column = $n` assignment produced by the
partial-update compiler, with its bind value. -/
inductive ColumnAssign where
  | name (v : String)
  | description (v : String)
  | num_employees (v : Option Int)
  | logo_url (v : Option String)
deriving Repr, DecidableEq

/-- Modelled from the spec: the partial-update compiler `sqlForPartialUpdate`
(`src/helpers/sql.js`, not part of the provided sources).  Per its contract
it emits one `column = $n` assignment per provided field — using the column
alias `numEmployees ↦ num_employees`, `logoUrl ↦ logo_url` — and fails with
a `BadRequest`-class error when the field map is empty.  The set of emitted
assignments is what matters semantically; distinct columns commute, so the
emission order is immaterial. -/
def sqlForPartialUpdate (d : UpdateData) :
    Except CompanyError (List ColumnAssign) :=
  let cols := (d.name.map ColumnAssign.name).toList
    ++ (d.description.map ColumnAssign.description).toList
    ++ (d.numEmployees.map ColumnAssign.num_employees).toList
    ++ (d.logoUrl.map ColumnAssign.logo_url).toList
  if cols.isEmpty then Except.error (CompanyError.badRequest "No data")
  else Except.ok cols

/-- Emptiness of an update field map (no provided field). -/
def UpdateData.isEmpty (d : UpdateData) : Bool :=
  d.name.isNone && d.description.isNone
    && d.numEmployees.isNone && d.logoUrl.isNone

/-- Effect of one compiled `column = $n` assignment on a row. -/
def applyAssign (c : Company) : ColumnAssign → Company
  | ColumnAssign.name v => { c with name := v }
  | ColumnAssign.description v => { c with description := v }
  | ColumnAssign.num_employees v => { c with numEmployees := v }
  | ColumnAssign.logo_url v => { c with logoUrl := v }

/-- `Company.update`: compile the field map, run
`UPDATE companies SET ... WHERE handle = $n RETURNING ...`, take `rows[0]`;
throw `NotFoundError` when no row matched. -/
def Company.update (h : String) (d : UpdateData) (t : List Company) :
    Except CompanyError Company × List Company :=
  match sqlForPartialUpdate d with
  | Except.error e => (Except.error e, t)
  | Except.ok cols =>
    let t2 := t.map fun c =>
      if c.handle = h then cols.foldl applyAssign c else c
    match (t2.filter fun c => c.handle = h).head? with
    | none => (Except.error (CompanyError.notFound ("No company: " ++ h)), t2)
    | some c => (Except.ok c, t2)

/-- `Company.remove`: `DELETE FROM companies WHERE handle = $1 RETURNING handle`;
throw `NotFoundError` when no row was deleted. -/
def Company.remove (h : String) (t : List Company) :
    Except CompanyError Unit × List Company :=
  let t2 := t.filter fun c => ¬ c.handle = h
  match (t.filter fun c => c.handle = h).head? with
  | none => (Except.error (CompanyError.notFound ("No company: " ++ h)), t2)
  | some _ => (Except.ok (), t2)

/-- The result list of a query is sorted ascending by `name`
(`ORDER BY name`). -/
def sortedByName (l : List Company) : Prop := List.Sorted nameLe l

/-- The spec-side reading of the name filter: `pat` occurs in `nm` as a
case-insensitive contiguous substring. -/
def ContainsCI (pat nm : String) : Prop :=
  ∃ l r, nm.toList.map Char.toLower = l ++ pat.toList.map Char.toLower ++ r

theorem sortByName_perm (t : List Company) : (sortByName t).Perm t :=
  List.perm_insertionSort nameLe t

theorem sortByName_sorted (t : List Company) : sortedByName (sortByName t) :=
  List.sorted_insertionSort nameLe t

theorem startsWithChars_iff (n h : List Char) :
    startsWithChars n h = true ↔ ∃ r, h = n ++ r := by
  induction n generalizing h with
  | nil => simp [startsWithChars]
  | cons a n ih =>
    cases h with
    | nil => simp [startsWithChars]
    | cons b h =>
      simp only [startsWithChars, Bool.and_eq_true, decide_eq_true_eq, ih,
        List.cons_append, List.cons.injEq]
      constructor
      · rintro ⟨rfl, r, rfl⟩; exact ⟨r, rfl, rfl⟩
      · rintro ⟨r, rfl, rfl⟩; exact ⟨rfl, r, rfl⟩

theorem occursIn_iff (n h : List Char) :
    occursIn n h = true ↔ ∃ l r, h = l ++ n ++ r := by
  induction h with
  | nil =>
    simp only [occursIn, List.isEmpty_iff]
    constructor
    · rintro rfl; exact ⟨[], [], rfl⟩
    · rintro ⟨l, r, hlr⟩
      rcases List.append_eq_nil.mp (List.append_eq_nil.mp hlr.symm).1 with ⟨-, h2⟩
      exact h2
  | cons b h ih =>
    simp only [occursIn, Bool.or_eq_true, startsWithChars_iff, ih]
    constructor
    · rintro (⟨r, hr⟩ | ⟨l, r, rfl⟩)
      · exact ⟨[], r, by simp [hr]⟩
      · exact ⟨b :: l, r, by simp⟩
    · rintro ⟨l, r, hlr⟩
      cases l with
      | nil => exact Or.inl ⟨r, by simpa using hlr⟩
      | cons x l =>
        rw [List.cons_append, List.cons_append, List.cons.injEq] at hlr
        exact Or.inr ⟨l, r, hlr.2⟩

theorem nameMatches_iff (pat nm : String) :
    nameMatches pat nm = true ↔ ContainsCI pat nm :=
  occursIn_iff _ _

theorem nameMatches_nil (nm : String) : nameMatches "" nm = true := by
  rw [nameMatches_iff]
  exact ⟨[], nm.toList.map Char.toLower, by simp⟩

theorem numInRange_iff (lo hi : Int) (c : Company) :
    numInRange lo hi c = true
      ↔ ∃ n, c.numEmployees = some n ∧ lo ≤ n ∧ n ≤ hi := by
  cases hn : c.numEmployees <;> simp [numInRange, hn]

theorem applyAssign_handle (c : Company) (a : ColumnAssign) :
    (applyAssign c a).handle = c.handle := by
  cases a <;> rfl

theorem foldl_applyAssign_handle (cols : List ColumnAssign) (c : Company) :
    (cols.foldl applyAssign c).handle = c.handle := by
  induction cols generalizing c with
  | nil => rfl
  | cons a cols ih => rw [List.foldl_cons, ih, applyAssign_handle]

/-- When the field map is nonempty the compiler succeeds, and folding the
compiled assignments over a row sets exactly the provided fields. -/
theorem sqlForPartialUpdate_ok (d : UpdateData) (cols : List ColumnAssign)
    (hc : sqlForPartialUpdate d = Except.ok cols) (c : Company) :
    cols.foldl applyAssign c =
      { handle := c.handle, name := d.name.getD c.name,
        description := d.description.getD c.description,
        numEmployees := d.numEmployees.getD c.numEmployees,
        logoUrl := d.logoUrl.getD c.logoUrl } := by
  obtain ⟨n, ds, ne, lu⟩ := d
  cases n <;> cases ds <;> cases ne <;> cases lu <;>
    simp_all [sqlForPartialUpdate, applyAssign] <;>
    subst hc <;> rfl

theorem findAll_branch_combined (q : FindAllQuery) (t : List Company)
    (h1 : boundsInverted q = false) (h2 : truthyStr q.name = true)
    (h3 : (truthyNum q.minEmployees || truthyNum q.maxEmployees) = true) :
    Company.findAll q t
      = (Except.ok (Company.findAllByNameAndEmployeeNum (q.name.getD "")
          (jsOrNum q.minEmployees 0) (jsOrNum q.maxEmployees 1000000) t), t) := by
  simp [Company.findAll, h1, h2, h3]

theorem findAll_branch_range (q : FindAllQuery) (t : List Company)
    (h1 : boundsInverted q = false) (h2 : truthyStr q.name = false)
    (h3 : (truthyNum q.minEmployees || truthyNum q.maxEmployees) = true) :
    Company.findAll q t
      = (Except.ok (Company.findAllByEmployeeNum
          (jsOrNum q.minEmployees 0) (jsOrNum q.maxEmployees 1000000) t), t) := by
  simp [Company.findAll, h1, h2, h3]

theorem findAll_branch_name (q : FindAllQuery) (t : List Company)
    (h1 : boundsInverted q = false) (h2 : truthyStr q.name = true)
    (h3 : truthyNum q.minEmployees = false)
    (h4 : truthyNum q.maxEmployees = false) :
    Company.findAll q t
      = (Except.ok (Company.findAllByName (q.name.getD "") t), t) := by
  simp [Company.findAll, h1, h2, h3, h4]

theorem findAll_branch_all (q : FindAllQuery) (t : List Company)
    (h1 : boundsInverted q = false) (h2 : truthyStr q.name = false)
    (h3 : (truthyNum q.minEmployees || truthyNum q.maxEmployees) = false) :
    Company.findAll q t = (Except.ok (sortByName t), t) := by
  simp [Company.findAll, h1, h2, h3]

theorem findAll_snd (q : FindAllQuery) (t : List Company) :
    (Company.findAll q t).2 = t := by
  unfold Company.findAll
  split
  · rfl
  split
  · rfl
  split
  · rfl
  split <;> rfl

theorem update_snd_of_error (h : String) (d : UpdateData) (t : List Company)
    (e : CompanyError) (hc : sqlForPartialUpdate d = Except.error e) :
    (Company.update h d t).2 = t := by
  unfold Company.update
  rw [hc]

theorem update_snd_of_ok (h : String) (d : UpdateData) (t : List Company)
    (cols : List ColumnAssign) (hc : sqlForPartialUpdate d = Except.ok cols) :
    (Company.update h d t).2
      = t.map fun c => if c.handle = h then cols.foldl applyAssign c else c := by
  unfold Company.update
  rw [hc]
  dsimp only
  split <;> rfl

theorem map_update_handles (h : String) (cols : List ColumnAssign)
    (t : List Company) :
    ((t.map fun c => if c.handle = h then cols.foldl applyAssign c else c).map
      Company.handle) = t.map Company.handle := by
  rw [List.map_map]
  refine List.map_congr_left fun c _ => ?_
  by_cases hch : c.handle = h <;> simp [hch, foldl_applyAssign_handle]

theorem update_snd_handles (h : String) (d : UpdateData) (t : List Company) :
    ((Company.update h d t).2).map Company.handle = t.map Company.handle := by
  cases hc : sqlForPartialUpdate d with
  | error e => rw [update_snd_of_error h d t e hc]
  | ok cols => rw [update_snd_of_ok h d t cols hc, map_update_handles]

theorem get_snd (h : String) (t : List Company) : (Company.get h t).2 = t := by
  unfold Company.get
  split <;> rfl

theorem remove_snd (h : String) (t : List Company) :
    (Company.remove h t).2 = t.filter fun c => ¬ c.handle = h := by
  unfold Company.remove
  dsimp only
  split <;> rfl

/-- C1: the `handle` of a stored company row is never changed by `update`
(for any sequence of update calls with any accepted field map), `get` and
`findAll` leave the table untouched, and only `create` appends a handle
and only `remove` deletes the rows of one. -/
theorem c1_handle_immutable (ops : List (String × UpdateData))
    (t : List Company) (h : String) (q : FindAllQuery) (d : Company) :
    (ops.foldl (fun s p => (Company.update p.1 p.2 s).2) t).map Company.handle
        = t.map Company.handle
    ∧ (Company.get h t).2 = t
    ∧ (Company.findAll q t).2 = t
    ∧ ((Company.create d t).2 = t ∨ (Company.create d t).2 = t ++ [d])
    ∧ (Company.remove h t).2 = t.filter fun c => ¬ c.handle = h := by
  refine ⟨?_, get_snd h t, findAll_snd q t, ?_, remove_snd h t⟩
  · induction ops generalizing t with
    | nil => rfl
    | cons p ops ih =>
      rw [List.foldl_cons, ih ((Company.update p.1 p.2 t).2), update_snd_handles]
  · unfold Company.create
    by_cases hc : (t.filter fun c => c.handle = d.handle) ≠ []
    · rw [if_pos hc]; exact Or.inl rfl
    · rw [if_neg hc]; exact Or.inr rfl

/-- C2: `create` with a handle already present in the table fails with the
duplicate-company `BadRequestError` carrying the handle and leaves the
table unchanged. -/
theorem c2_create_duplicate (d : Company) (t : List Company)
    (hdup : ∃ c ∈ t, c.handle = d.handle) :
    Company.create d t
      = (Except.error
          (CompanyError.badRequest ("Duplicate company: " ++ d.handle)), t) := by
  have hne : (t.filter fun c => c.handle = d.handle) ≠ [] := by
    obtain ⟨c, hct, hch⟩ := hdup
    have hmem : c ∈ t.filter fun c => c.handle = d.handle :=
      List.mem_filter.mpr ⟨hct, by simp [hch]⟩
    intro h0
    rw [h0] at hmem
    exact absurd hmem (List.not_mem_nil c)
  unfold Company.create
  rw [if_pos hne]

theorem c2_create_duplicate_witness :
    (∃ c ∈ [(⟨"acme", "Acme", "", none, none⟩ : Company)], c.handle = "acme")
    ∧ Company.create ⟨"acme", "Acme2", "x", some 5, none⟩
        [⟨"acme", "Acme", "", none, none⟩]
      = (Except.error (CompanyError.badRequest ("Duplicate company: " ++ "acme")),
         [⟨"acme", "Acme", "", none, none⟩]) :=
  ⟨by decide, c2_create_duplicate ⟨"acme", "Acme2", "x", some 5, none⟩ _ (by decide)⟩

/-- C3: `create` with a fresh handle succeeds, returns a record whose
fields equal the input, and a subsequent `get` with that handle returns
the same record (leaving the table unchanged). -/
theorem c3_create_then_get (d : Company) (t : List Company)
    (hfresh : ∀ c ∈ t, c.handle ≠ d.handle) :
    Company.create d t = (Except.ok d, t ++ [d])
      ∧ Company.get d.handle (t ++ [d]) = (Except.ok d, t ++ [d]) := by
  have hnil : (t.filter fun c => c.handle = d.handle) = [] :=
    List.filter_eq_nil_iff.mpr fun c hc => by simpa using hfresh c hc
  constructor
  · unfold Company.create
    rw [if_neg fun hcon => hcon hnil]
  · unfold Company.get
    rw [List.filter_append, hnil]
    simp

theorem c3_create_then_get_witness :
    (∀ c ∈ [(⟨"net", "Network Inc", "", some 7, none⟩ : Company)],
        c.handle ≠ "acme")
    ∧ Company.create ⟨"acme", "Acme", "d", some 3, some "u"⟩
        [⟨"net", "Network Inc", "", some 7, none⟩]
      = (Except.ok ⟨"acme", "Acme", "d", some 3, some "u"⟩,
         [⟨"net", "Network Inc", "", some 7, none⟩] ++
           [⟨"acme", "Acme", "d", some 3, some "u"⟩])
    ∧ Company.get "acme"
        ([⟨"net", "Network Inc", "", some 7, none⟩] ++
           [⟨"acme", "Acme", "d", some 3, some "u"⟩])
      = (Except.ok ⟨"acme", "Acme", "d", some 3, some "u"⟩,
         [⟨"net", "Network Inc", "", some 7, none⟩] ++
           [⟨"acme", "Acme", "d", some 3, some "u"⟩]) := by
  refine ⟨by decide, ?_⟩
  exact c3_create_then_get ⟨"acme", "Acme", "d", some 3, some "u"⟩
    [⟨"net", "Network Inc", "", some 7, none⟩] (by decide)

/-- C4: when both bounds are present and `minEmployees > maxEmployees`,
`findAll` fails with the inverted-bounds `BadRequestError` and the table is
not consulted: the outcome is the same for every table and no rows are
returned. -/
theorem c4_inverted_bounds (q : FindAllQuery) (t : List Company) (a b : Int)
    (hmin : q.minEmployees = some a) (hmax : q.maxEmployees = some b)
    (hab : b < a) :
    Company.findAll q t
      = (Except.error
          (CompanyError.badRequest
            "minEmployees cannot be greater than maxEmployees"), t) := by
  have hinv : boundsInverted q = true := by
    rw [boundsInverted, hmin, hmax]
    simpa using hab
  unfold Company.findAll
  rw [if_pos hinv]

theorem c4_inverted_bounds_witness :
    ({ minEmployees := some 50, maxEmployees := some 10 } :
        FindAllQuery).minEmployees = some 50
    ∧ Company.findAll { minEmployees := some 50, maxEmployees := some 10 }
        [⟨"a", "A", "", some 20, none⟩]
      = (Except.error
          (CompanyError.badRequest
            "minEmployees cannot be greater than maxEmployees"),
         [⟨"a", "A", "", some 20, none⟩]) :=
  ⟨rfl, c4_inverted_bounds _ _ 50 10 rfl rfl (by decide)⟩

/-- C5 counterexample: with `minEmployees = 0` (present, so the guard of the claim applies), no name and no `maxEmployees`, `findAll` returns every row
— here a row whose `numEmployees` is NULL — whereas the claimed result set
(rows with `numEmployees` in `[0, 1000000]`) is empty for this table. -/
theorem c5_counterexample :
    boundsInverted { minEmployees := some 0 } = false
    ∧ (Company.findAll { minEmployees := some 0 }
        [⟨"a", "A", "", none, none⟩]).1
      = Except.ok [⟨"a", "A", "", none, none⟩]
    ∧ [(⟨"a", "A", "", none, none⟩ : Company)].filter (numInRange 0 1000000)
      = [] := by decide

/-- C5 (amended): with name absent, at least one employee bound truthy
(present and nonzero) and bounds not inverted, `findAll` returns exactly
the companies whose (non-NULL) `numEmployees` lies inclusively between the
truthy-or-defaulted bounds, ordered by name ascending. -/
theorem c5_employee_range_filter (q : FindAllQuery) (t : List Company)
    (hname : q.name = none)
    (hb : (truthyNum q.minEmployees || truthyNum q.maxEmployees) = true)
    (hinv : boundsInverted q = false) :
    ∃ l, Company.findAll q t = (Except.ok l, t)
      ∧ sortedByName l
      ∧ l.Perm (t.filter
          (numInRange (jsOrNum q.minEmployees 0) (jsOrNum q.maxEmployees 1000000)))
      ∧ ∀ c : Company,
          numInRange (jsOrNum q.minEmployees 0)
              (jsOrNum q.maxEmployees 1000000) c = true
            ↔ ∃ n, c.numEmployees = some n
                ∧ jsOrNum q.minEmployees 0 ≤ n
                ∧ n ≤ jsOrNum q.maxEmployees 1000000 := by
  have h2 : truthyStr q.name = false := by rw [hname]; rfl
  exact ⟨Company.findAllByEmployeeNum (jsOrNum q.minEmployees 0)
      (jsOrNum q.maxEmployees 1000000) t,
    findAll_branch_range q t hinv h2 hb, sortByName_sorted _, sortByName_perm _,
    fun c => numInRange_iff _ _ c⟩

theorem c5_employee_range_filter_witness :
    ({ minEmployees := some 10, maxEmployees := some 100 } :
        FindAllQuery).name = none
    ∧ ∃ l, Company.findAll { minEmployees := some 10, maxEmployees := some 100 }
          [⟨"a", "A", "", some 5, none⟩, ⟨"b", "B", "", some 50, none⟩]
        = (Except.ok l,
           [⟨"a", "A", "", some 5, none⟩, ⟨"b", "B", "", some 50, none⟩])
      ∧ sortedByName l
      ∧ l.Perm ([(⟨"a", "A", "", some 5, none⟩ : Company),
          ⟨"b", "B", "", some 50, none⟩].filter
            (numInRange (jsOrNum (some 10) 0) (jsOrNum (some 100) 1000000)))
      ∧ ∀ c : Company,
          numInRange (jsOrNum (some 10) 0) (jsOrNum (some 100) 1000000) c = true
            ↔ ∃ n, c.numEmployees = some n
                ∧ jsOrNum (some 10) 0 ≤ n ∧ n ≤ jsOrNum (some 100) 1000000 :=
  ⟨rfl, c5_employee_range_filter _ _ rfl (by decide) (by decide)⟩

/-- C6: with a name filter and no employee bounds, `findAll` returns
exactly the companies whose name contains the filter string as a
case-insensitive substring (characterised by `ContainsCI`), ordered by
name ascending. -/
theorem c6_name_substring_filter (s : String) (t : List Company) :
    ∃ l, Company.findAll { name := some s } t = (Except.ok l, t)
      ∧ sortedByName l
      ∧ l.Perm (t.filter fun c => nameMatches s c.name)
      ∧ ∀ c : Company, nameMatches s c.name = true ↔ ContainsCI s c.name := by
  by_cases hs : s = ""
  · subst hs
    refine ⟨sortByName t, findAll_branch_all _ t rfl rfl rfl, sortByName_sorted t,
      ?_, fun c => nameMatches_iff "" c.name⟩
    have hall : (t.filter fun c => nameMatches "" c.name) = t :=
      List.filter_eq_self.mpr fun c _ => nameMatches_nil c.name
    rw [hall]
    exact sortByName_perm t
  · have h2 : truthyStr (some s : Option String) = true := by
      simp [truthyStr, hs]
    exact ⟨Company.findAllByName s t,
      findAll_branch_name { name := some s } t rfl h2 rfl rfl,
      sortByName_sorted _, sortByName_perm _, fun c => nameMatches_iff s c.name⟩

/-- C7 counterexample: with a name and `minEmployees = 0` (exactly one
bound present), branch 1 does NOT apply: the name-only branch returns the
NULL-`numEmployees` row, whereas the claimed branch-1 result set (name
match AND employee range) is empty for this table. -/
theorem c7_counterexample :
    (Company.findAll { name := some "a", minEmployees := some 0 }
        [⟨"h1", "a", "", none, none⟩]).1
      = Except.ok [⟨"h1", "a", "", none, none⟩]
    ∧ [(⟨"h1", "a", "", none, none⟩ : Company)].filter
        (fun c => nameMatches "a" c.name && numInRange 0 1000000 c) = [] := by
  decide

/-- C7 (amended): with a truthy (nonempty) name, exactly one truthy
(nonzero) employee bound and bounds not inverted, branch 1 wins by
evaluation order: `findAll` delegates to the combined
name-substring-and-employee-range filter with the other bound defaulted,
not to the name-only branch. -/
theorem c7_combined_branch_precedence (q : FindAllQuery) (t : List Company)
    (s : String) (hname : q.name = some s) (hs : s ≠ "")
    (hone : (truthyNum q.minEmployees || truthyNum q.maxEmployees) = true)
    (hnotboth : (truthyNum q.minEmployees && truthyNum q.maxEmployees) = false)
    (hinv : boundsInverted q = false) :
    Company.findAll q t
      = (Except.ok (Company.findAllByNameAndEmployeeNum s
          (jsOrNum q.minEmployees 0) (jsOrNum q.maxEmployees 1000000) t), t)
    ∧ (Company.findAllByNameAndEmployeeNum s
        (jsOrNum q.minEmployees 0) (jsOrNum q.maxEmployees 1000000) t).Perm
        (t.filter fun c =>
          nameMatches s c.name
            && numInRange (jsOrNum q.minEmployees 0)
                 (jsOrNum q.maxEmployees 1000000) c)
    ∧ sortedByName (Company.findAllByNameAndEmployeeNum s
        (jsOrNum q.minEmployees 0) (jsOrNum q.maxEmployees 1000000) t) := by
  have h2 : truthyStr q.name = true := by rw [hname]; simp [truthyStr, hs]
  have h1 := findAll_branch_combined q t hinv h2 hone
  rw [hname] at h1
  exact ⟨h1, sortByName_perm _, sortByName_sorted _⟩

theorem c7_combined_branch_precedence_witness :
    ({ name := some "net", minEmployees := some 10 } : FindAllQuery).name
        = some "net"
    ∧ Company.findAll { name := some "net", minEmployees := some 10 }
        [⟨"n1", "Network Inc", "", some 50, none⟩,
         ⟨"n2", "Internet Co", "", some 5, none⟩]
      = (Except.ok (Company.findAllByNameAndEmployeeNum "net"
          (jsOrNum (some 10) 0) (jsOrNum (none : Option Int) 1000000)
          [⟨"n1", "Network Inc", "", some 50, none⟩,
           ⟨"n2", "Internet Co", "", some 5, none⟩]),
         [⟨"n1", "Network Inc", "", some 50, none⟩,
          ⟨"n2", "Internet Co", "", some 5, none⟩])
    ∧ (Company.findAllByNameAndEmployeeNum "net"
        (jsOrNum (some 10) 0) (jsOrNum (none : Option Int) 1000000)
        [⟨"n1", "Network Inc", "", some 50, none⟩,
         ⟨"n2", "Internet Co", "", some 5, none⟩]).Perm
        ([(⟨"n1", "Network Inc", "", some 50, none⟩ : Company),
          ⟨"n2", "Internet Co", "", some 5, none⟩].filter fun c =>
            nameMatches "net" c.name
              && numInRange (jsOrNum (some 10) 0)
                   (jsOrNum (none : Option Int) 1000000) c)
    ∧ sortedByName (Company.findAllByNameAndEmployeeNum "net"
        (jsOrNum (some 10) 0) (jsOrNum (none : Option Int) 1000000)
        [⟨"n1", "Network Inc", "", some 50, none⟩,
         ⟨"n2", "Internet Co", "", some 5, none⟩]) := by
  refine ⟨rfl, ?_⟩
  exact c7_combined_branch_precedence
    { name := some "net", minEmployees := some 10 } _ "net" rfl (by decide)
    (by decide) (by decide) (by decide)

/-- C10: an employee bound equal to `0` is falsy in the dispatch guards
and hence treated as absent: `findAll {minEmployees := 0}` behaves as
`findAll {}` and returns every company (NULL `numEmployees` included)
ordered by name, and adding `minEmployees := 0` to a name query leaves the
name-only filtering unchanged. -/
theorem c10_zero_bound_treated_absent (t : List Company) (n : String) :
    Company.findAll { minEmployees := some 0 } t = Company.findAll {} t
    ∧ (∃ l, Company.findAll { minEmployees := some 0 } t = (Except.ok l, t)
        ∧ l.Perm t ∧ sortedByName l)
    ∧ Company.findAll { name := some n, minEmployees := some 0 } t
        = Company.findAll { name := some n } t := by
  have ha := findAll_branch_all { minEmployees := some 0 } t rfl rfl rfl
  refine ⟨?_, ⟨sortByName t, ha, sortByName_perm t, sortByName_sorted t⟩, ?_⟩
  · rw [ha, findAll_branch_all {} t rfl rfl rfl]
  · by_cases hn : n = ""
    · subst hn
      rw [findAll_branch_all { name := some "", minEmployees := some 0 } t rfl
        rfl rfl, findAll_branch_all { name := some "" } t rfl rfl rfl]
    · have h2 : truthyStr (some n : Option String) = true := by
        simp [truthyStr, hn]
      rw [findAll_branch_name { name := some n, minEmployees := some 0 } t rfl
        h2 rfl rfl, findAll_branch_name { name := some n } t rfl h2 rfl rfl]

theorem sqlForPartialUpdate_ok_of_nonempty (d : UpdateData)
    (hne : d.isEmpty = false) :
    ∃ cols, sqlForPartialUpdate d = Except.ok cols := by
  obtain ⟨n, ds, ne, lu⟩ := d
  cases n <;> cases ds <;> cases ne <;> cases lu <;>
    first
      | exact ⟨_, rfl⟩
      | simp [UpdateData.isEmpty] at hne

theorem update_eq_of_ok_some (h : String) (d : UpdateData) (t : List Company)
    (cols : List ColumnAssign) (hc : sqlForPartialUpdate d = Except.ok cols)
    (r : Company)
    (hr : ((t.map fun c =>
        if c.handle = h then cols.foldl applyAssign c else c).filter
          fun c => c.handle = h).head? = some r) :
    Company.update h d t
      = (Except.ok r,
         t.map fun c => if c.handle = h then cols.foldl applyAssign c else c) := by
  unfold Company.update
  rw [hc]
  dsimp only
  rw [hr]

theorem update_eq_of_ok_none (h : String) (d : UpdateData) (t : List Company)
    (cols : List ColumnAssign) (hc : sqlForPartialUpdate d = Except.ok cols)
    (hr : ((t.map fun c =>
        if c.handle = h then cols.foldl applyAssign c else c).filter
          fun c => c.handle = h).head? = none) :
    Company.update h d t
      = (Except.error (CompanyError.notFound ("No company: " ++ h)),
         t.map fun c => if c.handle = h then cols.foldl applyAssign c else c) := by
  unfold Company.update
  rw [hc]
  dsimp only
  rw [hr]

/-- C8: updating an existing handle with a nonempty field map succeeds;
the new table differs from the old only on rows with that handle, where
exactly the provided fields are replaced (`handle` kept); the returned
record is the updated row. -/
theorem c8_update_frame (h : String) (d : UpdateData)
    (t : List Company) (hne : d.isEmpty = false)
    (hex : ∃ c ∈ t, c.handle = h) :
    ∃ r t2, Company.update h d t = (Except.ok r, t2)
      ∧ t2 = t.map (fun c => if c.handle = h then
          { handle := c.handle, name := d.name.getD c.name,
            description := d.description.getD c.description,
            numEmployees := d.numEmployees.getD c.numEmployees,
            logoUrl := d.logoUrl.getD c.logoUrl } else c)
      ∧ (t2.filter fun c => c.handle = h).head? = some r := by
  obtain ⟨cols, hc⟩ := sqlForPartialUpdate_ok_of_nonempty d hne
  have hmem : ∃ x ∈ (t.map fun c =>
      if c.handle = h then cols.foldl applyAssign c else c), x.handle = h := by
    obtain ⟨c0, hc0t, hc0h⟩ := hex
    refine ⟨if c0.handle = h then cols.foldl applyAssign c0 else c0,
      List.mem_map_of_mem _ hc0t, ?_⟩
    rw [if_pos hc0h, foldl_applyAssign_handle, hc0h]
  cases hr : ((t.map fun c =>
      if c.handle = h then cols.foldl applyAssign c else c).filter
        fun c => c.handle = h).head? with
  | none =>
    obtain ⟨x, hxmem, hxh⟩ := hmem
    have hx := List.filter_eq_nil_iff.mp (List.head?_eq_none_iff.mp hr) x hxmem
    simp [hxh] at hx
  | some r =>
    refine ⟨r, _, update_eq_of_ok_some h d t cols hc r hr, ?_, hr⟩
    refine List.map_congr_left fun c _ => ?_
    by_cases hch : c.handle = h <;>
      simp [hch, sqlForPartialUpdate_ok d cols hc c]

theorem c8_update_frame_witness :
    ({ numEmployees := some (some 42) } : UpdateData).isEmpty = false
    ∧ ∃ r t2, Company.update "acme" { numEmployees := some (some 42) }
          [⟨"acme", "Acme", "old", some 1, some "L"⟩,
           ⟨"other", "Other", "", none, none⟩]
        = (Except.ok r, t2)
      ∧ t2 = [(⟨"acme", "Acme", "old", some 1, some "L"⟩ : Company),
          ⟨"other", "Other", "", none, none⟩].map (fun c =>
            if c.handle = "acme" then
              { handle := c.handle,
                name := (({ numEmployees := some (some 42) } :
                  UpdateData).name).getD c.name,
                description := (({ numEmployees := some (some 42) } :
                  UpdateData).description).getD c.description,
                numEmployees := (({ numEmployees := some (some 42) } :
                  UpdateData).numEmployees).getD c.numEmployees,
                logoUrl := (({ numEmployees := some (some 42) } :
                  UpdateData).logoUrl).getD c.logoUrl } else c)
      ∧ (t2.filter fun c => c.handle = "acme").head? = some r := by
  refine ⟨by decide, ?_⟩
  exact c8_update_frame "acme" { numEmployees := some (some 42) }
    [⟨"acme", "Acme", "old", some 1, some "L"⟩,
     ⟨"other", "Other", "", none, none⟩] (by decide) (by decide)

/-- C9: `get`, `update` (nonempty field map) and `remove` on an absent
handle each fail with `NotFoundError` and leave the table unchanged; a
successful `remove` deletes the row of the handle, so a subsequent `get` fails
with `NotFoundError`. -/
theorem c9_missing_handle_not_found (h : String) (d : UpdateData)
    (t : List Company) :
    ((∀ c ∈ t, c.handle ≠ h) →
      Company.get h t
          = (Except.error (CompanyError.notFound ("No company: " ++ h)), t)
      ∧ (d.isEmpty = false →
          Company.update h d t
            = (Except.error (CompanyError.notFound ("No company: " ++ h)), t))
      ∧ Company.remove h t
          = (Except.error (CompanyError.notFound ("No company: " ++ h)), t))
    ∧ ((∃ c ∈ t, c.handle = h) →
      ∃ t2, Company.remove h t = (Except.ok (), t2)
        ∧ Company.get h t2
            = (Except.error (CompanyError.notFound ("No company: " ++ h)), t2)) := by
  constructor
  · intro hfresh
    have hnil : (t.filter fun c => c.handle = h) = [] :=
      List.filter_eq_nil_iff.mpr fun c hct => by simpa using hfresh c hct
    have hz : (t.filter fun c => ¬ c.handle = h) = t :=
      List.filter_eq_self.mpr fun c hct => by simpa using hfresh c hct
    refine ⟨?_, ?_, ?_⟩
    · unfold Company.get
      rw [hnil]
      rfl
    · intro hne
      obtain ⟨cols, hc⟩ := sqlForPartialUpdate_ok_of_nonempty d hne
      have hid : (t.map fun c =>
          if c.handle = h then cols.foldl applyAssign c else c) = t := by
        have := List.map_congr_left
          (fun c hct => if_neg (by simpa using hfresh c hct) :
            ∀ c ∈ t, (if c.handle = h then cols.foldl applyAssign c else c) = c)
        rw [this]
        exact List.map_id t
      have hrn : ((t.map fun c =>
          if c.handle = h then cols.foldl applyAssign c else c).filter
            fun c => c.handle = h).head? = none := by
        rw [hid, hnil]
        rfl
      rw [update_eq_of_ok_none h d t cols hc hrn, hid]
    · unfold Company.remove
      dsimp only
      rw [hnil, hz]
      rfl
  · intro hex
    have hne : (t.filter fun c => c.handle = h) ≠ [] := by
      obtain ⟨c0, hc0t, hc0h⟩ := hex
      intro h0
      have := List.filter_eq_nil_iff.mp h0 c0 hc0t
      simp [hc0h] at this
    cases hr : (t.filter fun c => c.handle = h).head? with
    | none => exact absurd (List.head?_eq_none_iff.mp hr) hne
    | some c =>
      refine ⟨t.filter fun c => ¬ c.handle = h, ?_, ?_⟩
      · unfold Company.remove
        dsimp only
        rw [hr]
      · have hnil2 : ((t.filter fun c => ¬ c.handle = h).filter
            fun c => c.handle = h) = [] := by
          refine List.filter_eq_nil_iff.mpr fun x hx => ?_
          have := (List.mem_filter.mp hx).2
          simpa using this
        unfold Company.get
        rw [hnil2]
        rfl

theorem c9_missing_handle_not_found_witness :
    Company.get "zzz" [⟨"acme", "Acme", "", none, none⟩]
      = (Except.error (CompanyError.notFound ("No company: " ++ "zzz")),
         [⟨"acme", "Acme", "", none, none⟩])
    ∧ Company.update "zzz" { name := some "X" }
        [⟨"acme", "Acme", "", none, none⟩]
      = (Except.error (CompanyError.notFound ("No company: " ++ "zzz")),
         [⟨"acme", "Acme", "", none, none⟩])
    ∧ Company.remove "zzz" [⟨"acme", "Acme", "", none, none⟩]
      = (Except.error (CompanyError.notFound ("No company: " ++ "zzz")),
         [⟨"acme", "Acme", "", none, none⟩])
    ∧ ∃ t2, Company.remove "acme" [⟨"acme", "Acme", "", none, none⟩]
          = (Except.ok (), t2)
        ∧ Company.get "acme" t2
          = (Except.error (CompanyError.notFound ("No company: " ++ "acme")), t2) := by
  have h1 := (c9_missing_handle_not_found "zzz" { name := some "X" }
    [⟨"acme", "Acme", "", none, none⟩]).1 (by decide)
  have h2 := (c9_missing_handle_not_found "acme" { name := some "X" }
    [⟨"acme", "Acme", "", none, none⟩]).2 (by decide)
  exact ⟨h1.1, h1.2.1 (by decide), h1.2.2, h2⟩

